import Mathlib

/-! Formal model of the release-it release orchestration core: the npm
registry publish client (lib/npm.js), the GitHub remote release client
with its retry policy (the github client source file), and the task
pipeline (lib/tasks.js), embedded as executable Lean functions. -/

/-- Default npm distribution tag, DEFAULT_TAG in lib/npm.js. -/
def DEFAULT_TAG : String := "latest"

/-- Truthiness of an optional string under the JavaScript rules that the
source relies on: an absent value and the empty string are falsy. -/
def truthyOptStr : Option String → Bool
  | some s => !(s == "")
  | none => false

/-- Splits a character list on a separator character; the accumulator
holds the current piece reversed. -/
def splitOnCharAux (sep : Char) : List Char → List Char → List (List Char)
  | [], acc => [acc.reverse]
  | c :: rest, acc =>
    if c = sep then acc.reverse :: splitOnCharAux sep rest []
    else splitOnCharAux sep rest (c :: acc)

/-- Splits a character list on a separator character. -/
def splitOnChar (sep : Char) (cs : List Char) : List (List Char) :=
  splitOnCharAux sep cs []

/-- Modelled from the semver library boundary (an external dependency of
lib/npm.js, not part of this repository): semver.prerelease returns the
dot-separated pre-release identifiers of a valid semantic version, or
null when the version has no pre-release part. Build metadata after a
plus sign is discarded; the pre-release part is everything after the
first hyphen. -/
def semverPrerelease (v : String) : Option (List String) :=
  let core := (splitOnChar '+' v.data).headD v.data
  match splitOnChar '-' core with
  | [] => none
  | [_] => none
  | _ :: rest =>
    let p := (rest.intersperse ['-']).flatten
    if p.isEmpty then none
    else some ((splitOnChar '.' p).map (fun l => String.mk l))

/-- Arguments of npm.getTag; each field is optional exactly as in the
JavaScript destructuring with defaults. -/
structure GetTagArgs where
  tag : Option String := none
  version : Option String := none
  isPreRelease : Bool := false
deriving DecidableEq

/-- Embeds npm.getTag from lib/npm.js: return the supplied tag (or the
default tag) unless the release is a pre-release with a present version;
in that case the first pre-release component wins, with the supplied tag
as the fallback when there are no pre-release components. -/
def npm.getTag (a : GetTagArgs) : String :=
  let tag := a.tag.getD DEFAULT_TAG
  if !a.isPreRelease || !(truthyOptStr a.version) then tag
  else
    match semverPrerelease (a.version.getD "") with
    | some (c :: _) => c
    | _ => tag

/-- Options of the npm client that npm.publish reads (lib/npm.js
constructor and the destructuring inside publish). -/
structure NpmOptions where
  name : String := "pkg"
  publishPath : String := "."
  access : Option String := none
  isDryRun : Bool := false
  isInteractive : Bool := false
deriving DecidableEq

/-- Embeds the accessArg computation of npm.publish: only scoped package
names with a truthy access option produce an access argument. -/
def npm.accessArg (o : NpmOptions) : String :=
  if o.name.startsWith "@" && truthyOptStr o.access then "--access " ++ o.access.getD "" else ""

/-- Embeds the otpArg computation of npm.publish: a truthy one-time
passcode is passed on the command line. -/
def npm.otpArg (otp : Option String) : String :=
  if truthyOptStr otp then "--otp " ++ otp.getD "" else ""

/-- Command template of npm.publish up to, and excluding, the final
dry-run argument. -/
def npm.publishCmdStem (o : NpmOptions) (resolvedTag : String) (otp : Option String) : String :=
  "npm publish " ++ o.publishPath ++ " --tag " ++ resolvedTag ++ " " ++
    npm.accessArg o ++ " " ++ npm.otpArg otp ++ " "

/-- Full shell command issued by npm.publish, the dry-run flag appended
exactly when the dry-run option is set. -/
def npm.publishCommand (o : NpmOptions) (resolvedTag : String) (otp : Option String) : String :=
  npm.publishCmdStem o resolvedTag otp ++ (if o.isDryRun then "--dry-run" else "")

/-- Tests whether the first character list is an initial segment of the
second. -/
def leadsWith : List Char → List Char → Bool
  | [], _ => true
  | _ :: _, [] => false
  | p :: ps, c :: cs => (p = c) && leadsWith ps cs

/-- Tests whether the first character list occurs contiguously inside
the second. -/
def hasSub (pat : List Char) : List Char → Bool
  | [] => leadsWith pat []
  | c :: cs => leadsWith pat (c :: cs) || hasSub pat cs

/-- Test for an OTP-related failure message, embedding the regular
expression test of npm.publish for the words one-time pass. -/
def otpRelated (err : String) : Bool := hasSub "one-time pass".data err.data

/-- Warning text logged by npm.publish when a provided OTP is rejected. -/
def otpWarning : String := "The provided OTP is incorrect or has expired."

/-- Observable outcome of a run of npm.publish: whether the published
flag was set, the error finally thrown (if any), the warnings logged,
how many times the OTP prompt was rendered, and the shell commands
issued in order. -/
structure PublishOutcome where
  published : Bool
  error : Option String
  warnings : List String
  promptsUsed : Nat
  commands : List String
deriving DecidableEq

/-- Embeds npm.publish of lib/npm.js. The shell call is abstracted as
shellRun taking the attempt index and the command; the operator's
successive answers to the OTP prompt are supplied as the prompts list.
The recursion of the source is unbounded, driven only by the operator
re-entering codes; the list plays the operator's role, and an exhausted
list models the operator no longer answering, surfacing the pending
error. -/
def npm.publishLoop (o : NpmOptions) (shellRun : Nat → String → Except String Unit)
    (tag version : Option String) (isPreRelease : Bool) (hasOtpPrompt : Bool) :
    List String → Option String → Nat → PublishOutcome
  | prompts, otp, i =>
    let resolvedTag := npm.getTag { tag := tag, version := version, isPreRelease := isPreRelease }
    let cmd := npm.publishCommand o resolvedTag otp
    match shellRun i cmd with
    | Except.ok _ => ⟨true, none, [], 0, [cmd]⟩
    | Except.error err =>
      if otpRelated err then
        let ws := if otp.isSome then [otpWarning] else []
        if o.isInteractive && hasOtpPrompt then
          match prompts with
          | [] => ⟨false, some err, ws, 0, [cmd]⟩
          | p :: rest =>
            let r := npm.publishLoop o shellRun tag version isPreRelease hasOtpPrompt rest (some p) (i + 1)
            ⟨r.published, r.error, ws ++ r.warnings, r.promptsUsed + 1, cmd :: r.commands⟩
        else ⟨false, some err, ws, 0, [cmd]⟩
      else ⟨false, some err, [], 0, [cmd]⟩

/-- HTTP error raised by the octokit client boundary: a status code and a
message, the two fields the GitHub client source reads off a thrown
error. -/
structure HttpError where
  status : Nat
  message : String
deriving DecidableEq

/-- Statuses that abort immediately, NO_RETRIES_NEEDED in the GitHub
client source. -/
def NO_RETRIES_NEEDED : List Nat := [400, 401, 404, 422]

/-- Collapses every run of newline and carriage-return characters to a
single space, as the replace call inside parseErrorMessage does. The
second argument records whether the previous character was part of such
a run. -/
def collapseNewlines : List Char → Bool → List Char
  | [], _ => []
  | c :: rest, inRun =>
    if c = '\n' ∨ c = '\r' then
      if inRun then collapseNewlines rest true
      else ' ' :: collapseNewlines rest true
    else c :: collapseNewlines rest false

/-- Embeds parseErrorMessage of the GitHub client for errors carrying a
status and a message. -/
def parseErrorMessage (e : HttpError) : String :=
  toString e.status ++ " (" ++ String.mk (collapseNewlines e.message.data false) ++ ")"

/-- Result of one retried network operation: success with the response
data, a bail with a GithubClientError message, or a thrown error after
the retries were exhausted. -/
inductive CallResult (α : Type) where
  | ok (a : α)
  | clientError (msg : String)
  | failed (e : HttpError)
deriving DecidableEq

/-- Outcome of the retry wrapper: the final result, how many attempts
were made in total, and the warnings logged in order. -/
structure RetryOutcome (α : Type) where
  result : CallResult α
  attempts : Nat
  warnings : List String
deriving DecidableEq

/-- Embeds the async-retry loop shared by the create-release and
upload-asset operations of the GitHub client: a status listed in
NO_RETRIES_NEEDED bails out at once with the parsed message, any other
error is logged as a warning and retried while retries remain. The
network is abstracted as a function from the attempt index to that
attempt's result. -/
def runRetry {α : Type} (net : Nat → Except HttpError α) :
    Nat → Nat → List String → RetryOutcome α
  | r, i, ws =>
    match net i with
    | Except.ok a => ⟨CallResult.ok a, i + 1, ws.reverse⟩
    | Except.error e =>
      if NO_RETRIES_NEEDED.contains e.status then
        ⟨CallResult.clientError (parseErrorMessage e), i + 1, ws.reverse⟩
      else
        match r with
        | 0 => ⟨CallResult.failed e, i + 1, (parseErrorMessage e :: ws).reverse⟩
        | Nat.succ n => runRetry net n (i + 1) (parseErrorMessage e :: ws)

/-- Fields of the createRelease response data that the GitHub client
reads. -/
structure ReleaseData where
  name : String
  tagLabel : String
  htmlUrl : String
  uploadUrl : String
deriving DecidableEq

/-- Fields of the uploadReleaseAsset response data that the GitHub client
reads. -/
structure AssetData where
  browserDownloadUrl : String
deriving DecidableEq

/-- The retry wrapper as instantiated by GitHub.release: two retries
after the first attempt. -/
def GitHub.releaseRetry (net : Nat → Except HttpError ReleaseData) : RetryOutcome ReleaseData :=
  runRetry net 2 0 []

/-- The retry wrapper as instantiated by GitHub.uploadAsset: two retries
after the first attempt. -/
def GitHub.uploadAssetRetry (net : Nat → Except HttpError AssetData) : RetryOutcome AssetData :=
  runRetry net 2 0 []

/-- State of one GitHub client instance: the options read by release,
uploadAssets and getReleaseUrl, and the instance fields mutated by a
successful release. -/
structure GitHubState where
  isDryRun : Bool := false
  tagName : String := "$\x7bversion\x7d"
  host : String := "github.com"
  repository : String := "user/repo"
  version : Option String := none
  releaseUrl : Option String := none
  uploadUrl : Option String := none
  isReleased : Bool := false
deriving DecidableEq

/-- Outcome of one call of GitHub.release: the dry-run no-op, a success
with the response data, a bail with a client error, or a thrown error
after the retries were exhausted. -/
inductive ReleaseStepOutcome where
  | dryRunNoop
  | ok (d : ReleaseData)
  | clientError (msg : String)
  | failed (e : HttpError)
deriving DecidableEq

/-- Result of GitHub.release: the client state afterwards, the outcome,
the number of network attempts made, and the warnings logged. -/
structure ReleaseStepResult where
  state : GitHubState
  outcome : ReleaseStepOutcome
  attempts : Nat
  warnings : List String
deriving DecidableEq

/-- Embeds GitHub.release: in dry-run mode it returns the no-op promise
without touching the network or the instance state; otherwise it runs
the retried createRelease call and, only on success, records the
version, the release url, the upload url and the released flag. -/
def GitHub.releaseStep (st : GitHubState) (version : String)
    (net : Nat → Except HttpError ReleaseData) : ReleaseStepResult :=
  if st.isDryRun then ⟨st, ReleaseStepOutcome.dryRunNoop, 0, []⟩
  else
    let r := GitHub.releaseRetry net
    match r.result with
    | CallResult.ok d =>
      ⟨{ st with version := some version, releaseUrl := some d.htmlUrl, uploadUrl := some d.uploadUrl, isReleased := true },
        ReleaseStepOutcome.ok d, r.attempts, r.warnings⟩
    | CallResult.clientError m => ⟨st, ReleaseStepOutcome.clientError m, r.attempts, r.warnings⟩
    | CallResult.failed e => ⟨st, ReleaseStepOutcome.failed e, r.attempts, r.warnings⟩

/-- Result of GitHub.uploadAssets: total network attempts, the per-file
results, and the warnings logged by the retry wrappers. -/
structure UploadAssetsResult where
  attempts : Nat
  results : List (CallResult AssetData)
  warnings : List String
deriving DecidableEq

/-- Embeds GitHub.uploadAssets: a falsy assets option or dry-run mode
short-circuits to the no-op promise without touching the network;
otherwise every file matched by the glob (abstracted as the files list)
is uploaded through the retry wrapper. The network is abstracted per
file. -/
def GitHub.uploadAssetsStep (st : GitHubState) (assets : Option String) (files : List String)
    (net : String → Nat → Except HttpError AssetData) : UploadAssetsResult :=
  if !(truthyOptStr assets) then ⟨0, [], []⟩
  else if st.isDryRun then ⟨0, [], []⟩
  else
    let rs := files.map (fun f => GitHub.uploadAssetRetry (net f))
    ⟨(rs.map (fun r => r.attempts)).sum, rs.map (fun r => r.result),
      (rs.map (fun r => r.warnings)).flatten⟩

/-- Modelled from the spec: the format helper of the util module (not
under src) substitutes the version template variable; the spec lists
the template variables such as the version and the name. -/
def format (template : String) (version : String) : String :=
  String.intercalate version (template.splitOn "$\x7bversion\x7d")

/-- Embeds GitHub.getReleaseUrlFallback: a url built from the repository
host, the repository path and the tag name formatted with the stored
version (an absent version renders as the text undefined, as JavaScript
interpolation would). -/
def GitHub.getReleaseUrlFallback (st : GitHubState) : String :=
  "https://" ++ st.host ++ "/" ++ st.repository ++ "/releases/tag/" ++
    format st.tagName (st.version.getD "undefined")

/-- Embeds GitHub.getReleaseUrl: the recorded release url when truthy,
else the fallback url. -/
def GitHub.getReleaseUrl (st : GitHubState) : String :=
  match st.releaseUrl with
  | some u => if u == "" then GitHub.getReleaseUrlFallback st else u
  | none => GitHub.getReleaseUrlFallback st

/-- Names of the five gated sub-steps of the release step group in
lib/tasks.js, the asset upload that follows a release included. -/
inductive StepName where
  | commit
  | tag
  | push
  | release
  | uploadAssets
  | publish
deriving DecidableEq

/-- Configuration-derived gates of the step group: the git commit, tag
and push flags, the github release and assets flags, and the npm publish
and private flags (the effective publish gate is publish and not
private). -/
structure StepGates where
  gitCommit : Bool := false
  gitTag : Bool := false
  gitPush : Bool := false
  ghRelease : Bool := false
  ghAssets : Bool := false
  npmPublish : Bool := false
  npmPrivate : Bool := false
deriving DecidableEq

/-- Fatal errors of the pipeline that the embedded claims distinguish:
the git precondition errors of init and validate, the GithubTokenError
of GitHub.validate, the InvalidVersionError of the version resolver, and
a failing executed sub-step. -/
inductive PErr where
  | gitError
  | githubToken
  | invalidVersion
  | stepFailed (isDist : Bool) (s : StepName)
deriving DecidableEq

/-- Trace events of one pipeline run, in the order lib/tasks.js awaits
them. -/
inductive Event where
  | gitValidated
  | ghValidated
  | versionResolved
  | versionValidated
  | bumpFiles
  | stageFiles
  | stageDir
  | distPrepare
  | stepGroup (isDist : Bool) (version : String) (steps : List StepName)
  | afterReleaseHook (isDist : Bool)
  | summary
deriving DecidableEq

/-- Lookup of an environment variable, the lodash get on process.env in
the GitHub client's token getter. -/
def envGet (env : List (String × String)) (key : String) : Option String :=
  (env.find? (fun kv => kv.1 == key)).map (fun kv => kv.2)

/-- Embeds GitHub.validate: nothing is checked unless a release is
requested; then a missing or empty token environment variable is the
fatal GithubTokenError. -/
def GitHub.validate (release : Bool) (token : Option String) : Option PErr :=
  if !release then none
  else if !(truthyOptStr token) then some PErr.githubToken
  else none

/-- Modelled from the spec for the prompt and spinner collaborators (not
under src): a gated sub-step runs exactly when its gate is true and, in
interactive mode, the operator confirms it; declining skips it without
failing. The list is the sequence of sub-steps the release closure of
lib/tasks.js would attempt, the interactive release confirmation running
the asset upload only after a truthy release result (the dry-run no-op
is falsy). -/
def plannedSteps (isInteractive isDryRun : Bool) (g : StepGates)
    (confirm : StepName → Bool) : List StepName :=
  if isInteractive then
    (if g.gitCommit && confirm StepName.commit then [StepName.commit] else []) ++
    (if g.gitTag && confirm StepName.tag then [StepName.tag] else []) ++
    (if g.gitPush && confirm StepName.push then [StepName.push] else []) ++
    (if g.ghRelease && confirm StepName.release then
      (if isDryRun then [StepName.release] else [StepName.release, StepName.uploadAssets])
     else []) ++
    (if (g.npmPublish && !g.npmPrivate) && confirm StepName.publish then [StepName.publish] else [])
  else
    (if g.gitCommit then [StepName.commit] else []) ++
    (if g.gitTag then [StepName.tag] else []) ++
    (if g.gitPush then [StepName.push] else []) ++
    (if g.ghRelease then [StepName.release] else []) ++
    (if g.ghAssets then [StepName.uploadAssets] else []) ++
    (if g.npmPublish && !g.npmPrivate then [StepName.publish] else [])

/-- Runs the planned sub-steps in order, stopping at the first failing
one: returns the attempted steps and the failing step, if any. -/
def runSteps (fails : StepName → Bool) : List StepName → List StepName × Option StepName
  | [] => ([], none)
  | s :: rest =>
    if fails s then ([s], some s)
    else
      let r := runSteps fails rest
      (s :: r.1, r.2)

/-- Inputs of one pipeline run: the flags, environment and resolved
version, the gate sets of the primary and the distribution repository,
the operator's confirmations, and which sub-steps would fail when
executed. -/
structure PipelineInput where
  isInteractive : Bool := false
  isDryRun : Bool := false
  gitOk : Bool := true
  env : List (String × String) := []
  tokenRef : String := "GITHUB_TOKEN"
  resolvedVersion : Option String := none
  distRepo : Bool := false
  distShouldTag : Bool := false
  gates : StepGates := {}
  distGates : StepGates := {}
  confirm : Bool → StepName → Bool := fun _ _ => true
  stepFails : Bool → StepName → Bool := fun _ _ => false

/-- One invocation of the release step-group closure of lib/tasks.js,
for the primary repository or the distribution repository: the gated
sub-steps run in order until one fails, then the after-release hook. -/
def runGroup (inp : PipelineInput) (isDist : Bool) (g : StepGates) (version : String) :
    List Event × Option PErr :=
  let planned := plannedSteps inp.isInteractive inp.isDryRun g (inp.confirm isDist)
  let r := runSteps (inp.stepFails isDist) planned
  match r.2 with
  | some s => ([Event.stepGroup isDist version r.1], some (PErr.stepFailed isDist s))
  | none => ([Event.stepGroup isDist version r.1, Event.afterReleaseHook isDist], none)

/-- Trace of the pipeline stages before version validation: git init and
validate, the two GitHub client validations, and version resolution. -/
def tracePre : List Event := [Event.gitValidated, Event.ghValidated, Event.versionResolved]

/-- Trace of the stages between version validation and the step group:
validation, file bump, staging, and the distribution-repository
preparation when one is configured. -/
def traceMid (distRepo : Bool) : List Event :=
  [Event.versionValidated, Event.bumpFiles, Event.stageFiles, Event.stageDir] ++
    (if distRepo then [Event.distPrepare] else [])

/-- The tail of the pipeline after staging: the primary step group, then
(when a distribution repository is configured and the primary group
succeeded) the distribution step group with its recomputed tag gate,
then the summary. -/
def runRelease (inp : PipelineInput) (version : String) : List Event × Option PErr :=
  let r1 := runGroup inp false inp.gates version
  match r1.2 with
  | some err => (r1.1, some err)
  | none =>
    if inp.distRepo then
      let r2 := runGroup inp true { inp.distGates with gitTag := inp.distShouldTag } version
      match r2.2 with
      | some err => (r1.1 ++ r2.1, some err)
      | none => (r1.1 ++ r2.1 ++ [Event.summary], none)
    else (r1.1 ++ [Event.summary], none)

/-- Embeds the top-level task runner of lib/tasks.js at the granularity
of the claims: git init and validate first, then both GitHub client
validations, then version resolution and validation (modelled from the
spec for the version resolver, which is not under src: validation fails
with InvalidVersionError exactly when no version was resolved), then the
file bump and staging stages, then the step groups and the summary. -/
def runTasks (inp : PipelineInput) : List Event × Option PErr :=
  if inp.gitOk = false then ([], some PErr.gitError)
  else
    match GitHub.validate inp.gates.ghRelease (envGet inp.env inp.tokenRef) with
    | some e => ([Event.gitValidated], some e)
    | none =>
      match GitHub.validate inp.distGates.ghRelease (envGet inp.env inp.tokenRef) with
      | some e => ([Event.gitValidated], some e)
      | none =>
        match inp.resolvedVersion with
        | none => (tracePre, some PErr.invalidVersion)
        | some version =>
          let r := runRelease inp version
          (tracePre ++ traceMid inp.distRepo ++ r.1, r.2)

/-- Recognizer of step-group events. -/
def Event.isStepGroupEvt : Event → Bool
  | Event.stepGroup _ _ _ => true
  | _ => false

/-- The step-group events of a trace, in order. -/
def sgEvents (t : List Event) : List Event := t.filter Event.isStepGroupEvt

/-- The five gates of the step group named by the claims, all false; the
publish gate is the conjunction of the publish flag and the negated
private flag. -/
def fiveGatesFalse (g : StepGates) : Prop :=
  g.gitCommit = false ∧ g.gitTag = false ∧ g.gitPush = false ∧ g.ghRelease = false ∧
    (g.npmPublish && !g.npmPrivate) = false

instance (g : StepGates) : Decidable (fiveGatesFalse g) := by
  unfold fiveGatesFalse; infer_instance

/-- Concrete pipeline input with a distribution repository configured, a
commit gate on both sides, a resolved version, and no failing steps. -/
def inpDistSample : PipelineInput where
  resolvedVersion := some "1.0.1"
  distRepo := true
  gates := { gitCommit := true }
  distGates := { gitCommit := true }


theorem semverPrerelease_ne_empty {v : String} {l : List String}
    (h : semverPrerelease v = some l) : v ≠ "" := by
  intro he
  subst he
  rw [show semverPrerelease "" = none by decide] at h
  cases h

theorem getTag_not_pre (tg v : Option String) :
    npm.getTag { tag := tg, version := v, isPreRelease := false } = tg.getD DEFAULT_TAG := by
  simp [npm.getTag]

theorem getTag_pre_first (tg : Option String) (v c : String) (cs : List String)
    (h : semverPrerelease v = some (c :: cs)) :
    npm.getTag { tag := tg, version := some v, isPreRelease := true } = c := by
  have hv : v ≠ "" := semverPrerelease_ne_empty h
  have hb : (v == "") = false := beq_eq_false_iff_ne.mpr hv
  simp [npm.getTag, truthyOptStr, hb, h]

theorem getTag_pre_fallback (tg : Option String) (v : String)
    (h : semverPrerelease v = none ∨ semverPrerelease v = some []) :
    npm.getTag { tag := tg, version := some v, isPreRelease := true } = tg.getD DEFAULT_TAG := by
  by_cases hv : v = ""
  · subst hv; simp [npm.getTag, truthyOptStr]
  · have hb : (v == "") = false := beq_eq_false_iff_ne.mpr hv
    rcases h with h | h <;> simp [npm.getTag, truthyOptStr, hb, h]

/-- C2 counterexample: npm.getTag resolves the pre-release version
2.0.0-beta.3 to the tag beta even though the explicit tag next was
supplied, refuting the claim that an explicitly supplied tag overrides
the pre-release derivation. -/
theorem npm_tag_resolution_cex :
    npm.getTag { tag := some "next", version := some "2.0.0-beta.3", isPreRelease := true } = "beta" ∧
    ("beta" : String) ≠ "next" := by
  exact ⟨by decide, by decide⟩

/-- C2 amended: a pre-release version with pre-release identifiers
resolves to the version's first pre-release identifier regardless of any
explicitly supplied tag; a non-pre-release version resolves to the
explicit tag when one is supplied and to the default tag otherwise; the
explicit tag is also the fallback when a pre-release version carries no
pre-release identifiers. -/
theorem npm_tag_resolution_amended :
    (∀ tg v : Option String,
      npm.getTag { tag := tg, version := v, isPreRelease := false } = tg.getD DEFAULT_TAG) ∧
    (npm.getTag { tag := none, version := some "2.0.0-beta.3", isPreRelease := true } = "beta") ∧
    (∀ tg : String,
      npm.getTag { tag := some tg, version := some "2.0.0-beta.3", isPreRelease := true } = "beta") ∧
    (∀ (tg : Option String) (v c : String) (cs : List String),
      semverPrerelease v = some (c :: cs) →
      npm.getTag { tag := tg, version := some v, isPreRelease := true } = c) := by
  refine ⟨getTag_not_pre, ?_, ?_, getTag_pre_first⟩
  · exact getTag_pre_first none "2.0.0-beta.3" "beta" ["3"] (by decide)
  · intro tg
    exact getTag_pre_first (some tg) "2.0.0-beta.3" "beta" ["3"] (by decide)

/-- C2 witness: the amended theorem evaluated at the pre-release version
1.0.0-rc.2 with an explicit tag. -/
theorem npm_tag_resolution_amended_witness :
    semverPrerelease "1.0.0-rc.2" = some ("rc" :: ["2"]) ∧
    npm.getTag { tag := some "x", version := some "1.0.0-rc.2", isPreRelease := true } = "rc" := by
  exact ⟨by decide, npm_tag_resolution_amended.2.2.2 (some "x") "1.0.0-rc.2" "rc" ["2"] (by decide)⟩

/-- C9: getTag falls back to the supplied tag (or the default tag latest
when none is supplied) whenever the version is absent or empty, or the
version has no pre-release components, with isPreRelease true; being a
total function it always returns a tag. -/
theorem get_tag_fallback :
    (∀ tg : Option String,
      npm.getTag { tag := tg, version := none, isPreRelease := true } = tg.getD DEFAULT_TAG) ∧
    (∀ tg : Option String,
      npm.getTag { tag := tg, version := some "", isPreRelease := true } = tg.getD DEFAULT_TAG) ∧
    (∀ (tg : Option String) (v : String), semverPrerelease v = none →
      npm.getTag { tag := tg, version := some v, isPreRelease := true } = tg.getD DEFAULT_TAG) ∧
    (∀ (tg : Option String) (v : String), semverPrerelease v = some [] →
      npm.getTag { tag := tg, version := some v, isPreRelease := true } = tg.getD DEFAULT_TAG) ∧
    (npm.getTag { tag := none, version := none, isPreRelease := true } = DEFAULT_TAG) := by
  refine ⟨?_, ?_, ?_, ?_, ?_⟩
  · intro tg; simp [npm.getTag, truthyOptStr]
  · intro tg; simp [npm.getTag, truthyOptStr]
  · intro tg v h; exact getTag_pre_fallback tg v (Or.inl h)
  · intro tg v h; exact getTag_pre_fallback tg v (Or.inr h)
  · simp [npm.getTag, truthyOptStr]

/-- C9 witness: the fallback evaluated at the plain version 1.2.3, which
has no pre-release components, and with no supplied tag. -/
theorem get_tag_fallback_witness :
    semverPrerelease "1.2.3" = none ∧
    npm.getTag { tag := none, version := some "1.2.3", isPreRelease := true } = DEFAULT_TAG := by
  exact ⟨by decide, get_tag_fallback.2.2.1 none "1.2.3" (by decide)⟩

/-- C3: a publish failure whose message is not OTP-related propagates
unchanged after a single shell call with no prompt; an OTP-related
failure in a non-interactive session fails immediately without
prompting (warning only when an OTP had been provided); an OTP-related
failure in an interactive session with an OTP prompt available warns
when an OTP had been provided, prompts once, and retries the publish
exactly once with the freshly entered code. -/
theorem npm_publish_otp :
    (∀ (o : NpmOptions) (run : Nat → String → Except String Unit)
       (tg ver : Option String) (pre hop : Bool) (ps : List String)
       (otp : Option String) (err : String),
      run 0 (npm.publishCommand o (npm.getTag { tag := tg, version := ver, isPreRelease := pre }) otp) = Except.error err →
      otpRelated err = false →
      npm.publishLoop o run tg ver pre hop ps otp 0 =
        ⟨false, some err, [], 0,
          [npm.publishCommand o (npm.getTag { tag := tg, version := ver, isPreRelease := pre }) otp]⟩) ∧
    (∀ (o : NpmOptions) (run : Nat → String → Except String Unit)
       (tg ver : Option String) (pre hop : Bool) (ps : List String)
       (otp : Option String) (err : String),
      o.isInteractive = false →
      run 0 (npm.publishCommand o (npm.getTag { tag := tg, version := ver, isPreRelease := pre }) otp) = Except.error err →
      npm.publishLoop o run tg ver pre hop ps otp 0 =
        ⟨false, some err,
          if otpRelated err && otp.isSome then [otpWarning] else [], 0,
          [npm.publishCommand o (npm.getTag { tag := tg, version := ver, isPreRelease := pre }) otp]⟩) ∧
    (∀ (o : NpmOptions) (run : Nat → String → Except String Unit)
       (tg ver : Option String) (pre : Bool) (rest : List String)
       (otp : Option String) (p err : String),
      o.isInteractive = true →
      run 0 (npm.publishCommand o (npm.getTag { tag := tg, version := ver, isPreRelease := pre }) otp) = Except.error err →
      otpRelated err = true →
      run 1 (npm.publishCommand o (npm.getTag { tag := tg, version := ver, isPreRelease := pre }) (some p)) = Except.ok () →
      npm.publishLoop o run tg ver pre true (p :: rest) otp 0 =
        ⟨true, none, if otp.isSome then [otpWarning] else [], 1,
          [npm.publishCommand o (npm.getTag { tag := tg, version := ver, isPreRelease := pre }) otp,
           npm.publishCommand o (npm.getTag { tag := tg, version := ver, isPreRelease := pre }) (some p)]⟩) := by
  refine ⟨?_, ?_, ?_⟩
  · intro o run tg ver pre hop ps otp err h0 hrel
    rw [npm.publishLoop]
    rw [h0]
    simp [hrel]
  · intro o run tg ver pre hop ps otp err hint h0
    rw [npm.publishLoop]
    rw [h0]
    by_cases hr : otpRelated err
    · simp [hr, hint]
    · simp [hr]
  · intro o run tg ver pre rest otp p err hint h0 hrel h1
    have hstep : npm.publishLoop o run tg ver pre true rest (some p) 1 =
        ⟨true, none, [], 0,
          [npm.publishCommand o (npm.getTag { tag := tg, version := ver, isPreRelease := pre }) (some p)]⟩ := by
      rw [npm.publishLoop]
      rw [h1]
    rw [npm.publishLoop]
    rw [h0]
    simp [hrel, hint, hstep]

/-- C3 witness: an interactive publish whose first shell call fails with
an OTP-related message and whose second call, carrying the freshly
prompted code, succeeds; the outcome shows one prompt, no warning (no
OTP had been provided at first), and exactly two shell calls. -/
theorem npm_publish_otp_witness :
    npm.publishLoop { isInteractive := true }
      (fun i _ => if i = 0 then Except.error "npm ERR! This operation requires a one-time password" else Except.ok ())
      none none false true ["123456"] none 0 =
      ⟨true, none, if (none : Option String).isSome then [otpWarning] else [], 1,
        [npm.publishCommand { isInteractive := true } (npm.getTag { tag := none, version := none, isPreRelease := false }) none,
         npm.publishCommand { isInteractive := true } (npm.getTag { tag := none, version := none, isPreRelease := false }) (some "123456")]⟩ := by
  exact npm_publish_otp.2.2 { isInteractive := true }
    (fun i _ => if i = 0 then Except.error "npm ERR! This operation requires a one-time password" else Except.ok ())
    none none false [] none "123456" "npm ERR! This operation requires a one-time password"
    rfl rfl (by decide) rfl

theorem runRetry_attempts_le {α : Type} (net : Nat → Except HttpError α) :
    ∀ (r i : Nat) (ws : List String), (runRetry net r i ws).attempts ≤ i + r + 1 := by
  intro r
  induction r with
  | zero =>
    intro i ws
    rw [runRetry]
    cases h : net i with
    | ok a =>
      simp
    | error e =>
      by_cases hc : e.status ∈ NO_RETRIES_NEEDED
      · simp [hc]
      · simp [hc]
  | succ n ih =>
    intro i ws
    rw [runRetry]
    cases h : net i with
    | ok a =>
      simp
      try omega
    | error e =>
      by_cases hc : e.status ∈ NO_RETRIES_NEEDED
      · simp [hc]
        try omega
      · simp [hc]
        have := ih (i + 1) (parseErrorMessage e :: ws)
        omega

theorem runRetry_attempts_pos {α : Type} (net : Nat → Except HttpError α) :
    ∀ (r i : Nat) (ws : List String), i + 1 ≤ (runRetry net r i ws).attempts := by
  intro r
  induction r with
  | zero =>
    intro i ws
    rw [runRetry]
    cases h : net i with
    | ok a =>
      simp
    | error e =>
      by_cases hc : e.status ∈ NO_RETRIES_NEEDED
      · simp [hc]
      · simp [hc]
  | succ n ih =>
    intro i ws
    rw [runRetry]
    cases h : net i with
    | ok a =>
      simp
    | error e =>
      by_cases hc : e.status ∈ NO_RETRIES_NEEDED
      · simp [hc]
      · simp [hc]
        have := ih (i + 1) (parseErrorMessage e :: ws)
        omega

theorem runRetry_warn_bound {α : Type} (net : Nat → Except HttpError α) :
    ∀ (r i : Nat) (ws : List String),
      (runRetry net r i ws).attempts + ws.length ≤ (runRetry net r i ws).warnings.length + i + 1 := by
  intro r
  induction r with
  | zero =>
    intro i ws
    rw [runRetry]
    cases h : net i with
    | ok a =>
      simp
      try omega
    | error e =>
      by_cases hc : e.status ∈ NO_RETRIES_NEEDED
      · simp [hc]
        try omega
      · simp [hc]
        try omega
  | succ n ih =>
    intro i ws
    rw [runRetry]
    cases h : net i with
    | ok a =>
      simp
      try omega
    | error e =>
      by_cases hc : e.status ∈ NO_RETRIES_NEEDED
      · simp [hc]
        try omega
      · simp [hc]
        have := ih (i + 1) (parseErrorMessage e :: ws)
        simp at this
        omega

theorem runRetry_failed_attempts {α : Type} (net : Nat → Except HttpError α) :
    ∀ (r i : Nat) (ws : List String) (e : HttpError),
      (runRetry net r i ws).result = CallResult.failed e →
      (runRetry net r i ws).attempts = i + r + 1 := by
  intro r
  induction r with
  | zero =>
    intro i ws e hf
    cases h : net i with
    | ok a =>
      rw [runRetry] at hf
      rw [h] at hf
      simp at hf
    | error e' =>
      rw [runRetry] at hf ⊢
      rw [h] at hf ⊢
      by_cases hc : e'.status ∈ NO_RETRIES_NEEDED
      · simp [hc] at hf
      · simp [hc]
  | succ n ih =>
    intro i ws e hf
    cases h : net i with
    | ok a =>
      rw [runRetry] at hf
      rw [h] at hf
      simp at hf
    | error e' =>
      rw [runRetry] at hf ⊢
      rw [h] at hf ⊢
      by_cases hc : e'.status ∈ NO_RETRIES_NEEDED
      · simp [hc] at hf
      · simp [hc] at hf ⊢
        have := ih (i + 1) (parseErrorMessage e' :: ws) e hf
        omega

theorem runRetry_bail {α : Type} (net : Nat → Except HttpError α) (e : HttpError)
    (h : net 0 = Except.error e) (hc : NO_RETRIES_NEEDED.contains e.status = true) (r : Nat) :
    runRetry net r 0 [] = ⟨CallResult.clientError (parseErrorMessage e), 1, []⟩ := by
  have hm : e.status ∈ NO_RETRIES_NEEDED := by simpa using hc
  rw [runRetry]
  rw [h]
  simp [hm]

/-- C1: for the retried create-release and upload-asset network calls, a
first attempt failing with a status in NO_RETRIES_NEEDED (400, 401, 404,
422) yields exactly one attempt and a client error carrying the parsed
status and message; any run makes at most 3 attempts; the number of
retries (attempts beyond the first) never exceeds the number of warnings
logged, so a warning precedes every retry; and an exhausted run (a
thrown error) has made exactly 3 attempts. -/
theorem github_retry_policy (netR : Nat → Except HttpError ReleaseData)
    (netA : Nat → Except HttpError AssetData) :
    (∀ e : HttpError, netR 0 = Except.error e → NO_RETRIES_NEEDED.contains e.status = true →
      GitHub.releaseRetry netR = ⟨CallResult.clientError (parseErrorMessage e), 1, []⟩) ∧
    (GitHub.releaseRetry netR).attempts ≤ 3 ∧
    (GitHub.releaseRetry netR).attempts ≤ (GitHub.releaseRetry netR).warnings.length + 1 ∧
    (∀ e : HttpError, (GitHub.releaseRetry netR).result = CallResult.failed e →
      (GitHub.releaseRetry netR).attempts = 3) ∧
    (∀ e : HttpError, netA 0 = Except.error e → NO_RETRIES_NEEDED.contains e.status = true →
      GitHub.uploadAssetRetry netA = ⟨CallResult.clientError (parseErrorMessage e), 1, []⟩) ∧
    (GitHub.uploadAssetRetry netA).attempts ≤ 3 ∧
    (GitHub.uploadAssetRetry netA).attempts ≤ (GitHub.uploadAssetRetry netA).warnings.length + 1 ∧
    (∀ e : HttpError, (GitHub.uploadAssetRetry netA).result = CallResult.failed e →
      (GitHub.uploadAssetRetry netA).attempts = 3) := by
  refine ⟨?_, ?_, ?_, ?_, ?_, ?_, ?_, ?_⟩
  · intro e h hc
    exact runRetry_bail netR e h hc 2
  · have := runRetry_attempts_le netR 2 0 []
    simpa [GitHub.releaseRetry] using this
  · have := runRetry_warn_bound netR 2 0 []
    simp only [List.length_nil] at this
    simpa [GitHub.releaseRetry] using this
  · intro e hf
    have := runRetry_failed_attempts netR 2 0 [] e hf
    simpa [GitHub.releaseRetry] using this
  · intro e h hc
    exact runRetry_bail netA e h hc 2
  · have := runRetry_attempts_le netA 2 0 []
    simpa [GitHub.uploadAssetRetry] using this
  · have := runRetry_warn_bound netA 2 0 []
    simp only [List.length_nil] at this
    simpa [GitHub.uploadAssetRetry] using this
  · intro e hf
    have := runRetry_failed_attempts netA 2 0 [] e hf
    simpa [GitHub.uploadAssetRetry] using this

/-- C1 witness: a create-release call whose first attempt fails with
status 422 is attempted exactly once and aborts with the parsed client
error; likewise an upload-asset call failing with status 404. -/
theorem github_retry_policy_witness :
    GitHub.releaseRetry (fun _ => Except.error ⟨422, "Validation Failed"⟩) =
      ⟨CallResult.clientError (parseErrorMessage ⟨422, "Validation Failed"⟩), 1, []⟩ ∧
    GitHub.uploadAssetRetry (fun _ => Except.error ⟨404, "Not Found"⟩) =
      ⟨CallResult.clientError (parseErrorMessage ⟨404, "Not Found"⟩), 1, []⟩ := by
  have h := github_retry_policy (fun _ => Except.error ⟨422, "Validation Failed"⟩)
    (fun _ => Except.error ⟨404, "Not Found"⟩)
  exact ⟨h.1 ⟨422, "Validation Failed"⟩ rfl (by decide),
    h.2.2.2.2.1 ⟨404, "Not Found"⟩ rfl (by decide)⟩

theorem publishLoop_commands (o : NpmOptions) (run : Nat → String → Except String Unit)
    (tg ver : Option String) (pre hop : Bool) :
    ∀ (ps : List String) (otp : Option String) (i : Nat),
      (npm.publishLoop o run tg ver pre hop ps otp i).commands ≠ [] ∧
      ∀ c ∈ (npm.publishLoop o run tg ver pre hop ps otp i).commands,
        ∃ q, c = npm.publishCommand o (npm.getTag { tag := tg, version := ver, isPreRelease := pre }) q := by
  intro ps
  induction ps with
  | nil =>
    intro otp i
    rw [npm.publishLoop]
    cases h : run i (npm.publishCommand o (npm.getTag { tag := tg, version := ver, isPreRelease := pre }) otp) with
    | ok a =>
      refine ⟨by simp, ?_⟩
      intro c hc
      simp at hc
      exact ⟨otp, hc⟩
    | error err =>
      by_cases hr : otpRelated err
      · by_cases hi : o.isInteractive && hop
        · refine ⟨by simp [hr, hi], ?_⟩
          intro c hc
          simp [hr, hi] at hc
          exact ⟨otp, hc⟩
        · refine ⟨by simp [hr, hi], ?_⟩
          intro c hc
          simp [hr, hi] at hc
          exact ⟨otp, hc⟩
      · refine ⟨by simp [hr], ?_⟩
        intro c hc
        simp [hr] at hc
        exact ⟨otp, hc⟩
  | cons p rest ih =>
    intro otp i
    rw [npm.publishLoop]
    cases h : run i (npm.publishCommand o (npm.getTag { tag := tg, version := ver, isPreRelease := pre }) otp) with
    | ok a =>
      refine ⟨by simp, ?_⟩
      intro c hc
      simp at hc
      exact ⟨otp, hc⟩
    | error err =>
      by_cases hr : otpRelated err
      · by_cases hi : o.isInteractive && hop
        · refine ⟨by simp [hr, hi], ?_⟩
          intro c hc
          simp [hr, hi] at hc
          rcases hc with hc | hc
          · exact ⟨otp, hc⟩
          · exact (ih (some p) (i + 1)).2 c hc
        · refine ⟨by simp [hr, hi], ?_⟩
          intro c hc
          simp [hr, hi] at hc
          exact ⟨otp, hc⟩
      · refine ⟨by simp [hr], ?_⟩
        intro c hc
        simp [hr] at hc
        exact ⟨otp, hc⟩

/-- C4 counterexample: with the dry-run option set, GitHub.release
leaves the client state untouched, so the released flag stays false,
refuting the claim that dry-run still marks the client state as if a
real release occurred; the identical network response with dry-run off
does set the flag. -/
theorem dry_run_behavior_cex :
    (GitHub.releaseStep { isDryRun := true } "1.0.1"
      (fun _ => Except.ok ⟨"Release 1.0.1", "1.0.1",
        "https://github.com/user/repo/releases/tag/1.0.1",
        "https://uploads.github.com/repos/user/repo/releases/1/assets"⟩)).state.isReleased = false ∧
    (GitHub.releaseStep { isDryRun := false } "1.0.1"
      (fun _ => Except.ok ⟨"Release 1.0.1", "1.0.1",
        "https://github.com/user/repo/releases/tag/1.0.1",
        "https://uploads.github.com/repos/user/repo/releases/1/assets"⟩)).state.isReleased = true := by
  exact ⟨by decide, by decide⟩

/-- C4 amended: in dry-run mode, create-release and upload-assets return
a no-op success with zero network attempts and without modifying the
client state (in particular the released flag stays unset), whereas
publish in dry-run mode still invokes the underlying publish command,
every issued command carrying the dry-run flag. -/
theorem dry_run_behavior_amended :
    (∀ (st : GitHubState) (v : String) (net : Nat → Except HttpError ReleaseData),
      st.isDryRun = true →
      GitHub.releaseStep st v net = ⟨st, ReleaseStepOutcome.dryRunNoop, 0, []⟩) ∧
    (∀ (st : GitHubState) (a : Option String) (fs : List String)
       (net : String → Nat → Except HttpError AssetData),
      st.isDryRun = true → GitHub.uploadAssetsStep st a fs net = ⟨0, [], []⟩) ∧
    (∀ (o : NpmOptions) (rt : String) (otp : Option String),
      o.isDryRun = true →
      npm.publishCommand o rt otp = npm.publishCmdStem o rt otp ++ "--dry-run") ∧
    (∀ (o : NpmOptions) (run : Nat → String → Except String Unit)
       (tg ver : Option String) (pre hop : Bool) (ps : List String) (otp : Option String),
      o.isDryRun = true →
      (npm.publishLoop o run tg ver pre hop ps otp 0).commands ≠ [] ∧
      ∀ c ∈ (npm.publishLoop o run tg ver pre hop ps otp 0).commands,
        ∃ q, c = npm.publishCmdStem o (npm.getTag { tag := tg, version := ver, isPreRelease := pre }) q ++ "--dry-run") := by
  refine ⟨?_, ?_, ?_, ?_⟩
  · intro st v net h
    simp [GitHub.releaseStep, h]
  · intro st a fs net h
    by_cases ha : truthyOptStr a = true
    · simp [GitHub.uploadAssetsStep, h, ha]
    · simp [GitHub.uploadAssetsStep, h, ha]
  · intro o rt otp h
    simp [npm.publishCommand, h]
  · intro o run tg ver pre hop ps otp h
    obtain ⟨hne, hall⟩ := publishLoop_commands o run tg ver pre hop ps otp 0
    refine ⟨hne, ?_⟩
    intro c hc
    obtain ⟨q, hq⟩ := hall c hc
    refine ⟨q, ?_⟩
    rw [hq]
    simp [npm.publishCommand, h]

/-- C4 witness: the amended theorem evaluated on a dry-run GitHub client
and a dry-run npm publish command. -/
theorem dry_run_behavior_amended_witness :
    GitHub.releaseStep { isDryRun := true } "2.0.0" (fun _ => Except.error ⟨500, "server error"⟩) =
      ⟨{ isDryRun := true }, ReleaseStepOutcome.dryRunNoop, 0, []⟩ ∧
    GitHub.uploadAssetsStep { isDryRun := true } (some "dist/cli.zip") ["dist/cli.zip"]
      (fun _ _ => Except.error ⟨500, "server error"⟩) = ⟨0, [], []⟩ ∧
    npm.publishCommand { isDryRun := true } "latest" none =
      npm.publishCmdStem { isDryRun := true } "latest" none ++ "--dry-run" := by
  have h := dry_run_behavior_amended
  exact ⟨h.1 _ _ _ rfl, h.2.1 _ _ _ _ rfl, h.2.2.1 _ _ _ rfl⟩

/-- C10: getReleaseUrl returns the release url recorded by a successful
create-release when one is present (and truthy), and otherwise the
fallback url built from the repository host, the repository path and the
tag name formatted with the stored version; it is a pure function of the
client state, so no network is involved; and a successful non-dry-run
release records the response's html url, the released flag and the
version in the state that getReleaseUrl reads. -/
theorem release_url :
    (∀ (st : GitHubState) (u : String), st.releaseUrl = some u → u ≠ "" →
      GitHub.getReleaseUrl st = u) ∧
    (∀ st : GitHubState, st.releaseUrl = none →
      GitHub.getReleaseUrl st =
        "https://" ++ st.host ++ "/" ++ st.repository ++ "/releases/tag/" ++
          format st.tagName (st.version.getD "undefined")) ∧
    (∀ (st : GitHubState) (v : String) (net : Nat → Except HttpError ReleaseData) (d : ReleaseData),
      st.isDryRun = false →
      (GitHub.releaseStep st v net).outcome = ReleaseStepOutcome.ok d →
      (GitHub.releaseStep st v net).state.releaseUrl = some d.htmlUrl ∧
      (GitHub.releaseStep st v net).state.isReleased = true ∧
      (GitHub.releaseStep st v net).state.version = some v) := by
  refine ⟨?_, ?_, ?_⟩
  · intro st u hu hne
    have hb : (u == "") = false := beq_eq_false_iff_ne.mpr hne
    simp [GitHub.getReleaseUrl, hu, hb]
  · intro st h
    simp [GitHub.getReleaseUrl, GitHub.getReleaseUrlFallback, h]
  · intro st v net d hdry hok
    simp only [GitHub.releaseStep, hdry] at hok ⊢
    rcases hr : (GitHub.releaseRetry net).result with d' | m | e
    · rw [hr] at hok
      simp at hok ⊢
      subst hok
      simp
    · rw [hr] at hok
      simp at hok
    · rw [hr] at hok
      simp at hok

/-- C10 witness: a client with a recorded release url returns it, and a
successful release records the response's html url. -/
theorem release_url_witness :
    GitHub.getReleaseUrl { releaseUrl := some "https://github.com/user/repo/releases/tag/1.0.1" } =
      "https://github.com/user/repo/releases/tag/1.0.1" ∧
    (GitHub.releaseStep {} "1.0.1"
      (fun _ => Except.ok ⟨"Release 1.0.1", "1.0.1",
        "https://github.com/user/repo/releases/tag/1.0.1",
        "https://uploads.github.com/u"⟩)).state.releaseUrl =
      some "https://github.com/user/repo/releases/tag/1.0.1" := by
  have h := release_url
  exact ⟨h.1 _ _ rfl (by decide),
    (h.2.2 {} "1.0.1"
      (fun _ => Except.ok ⟨"Release 1.0.1", "1.0.1",
        "https://github.com/user/repo/releases/tag/1.0.1",
        "https://uploads.github.com/u"⟩)
      ⟨"Release 1.0.1", "1.0.1",
        "https://github.com/user/repo/releases/tag/1.0.1",
        "https://uploads.github.com/u"⟩ rfl (by decide)).1⟩

theorem runGroup_cases (inp : PipelineInput) (d : Bool) (g : StepGates) (v : String) :
    (∃ a, runGroup inp d g v = ([Event.stepGroup d v a, Event.afterReleaseHook d], none)) ∨
    (∃ a s, runGroup inp d g v = ([Event.stepGroup d v a], some (PErr.stepFailed d s))) := by
  simp only [runGroup]
  rcases h : (runSteps (inp.stepFails d) (plannedSteps inp.isInteractive inp.isDryRun g (inp.confirm d))).2 with _ | s
  · left
    exact ⟨_, rfl⟩
  · right
    exact ⟨_, s, rfl⟩

theorem runRelease_cases (inp : PipelineInput) (v : String) :
    (runRelease inp v).2 = none ∨ ∃ d s, (runRelease inp v).2 = some (PErr.stepFailed d s) := by
  simp only [runRelease]
  rcases runGroup_cases inp false inp.gates v with ⟨a, h1⟩ | ⟨a, s, h1⟩
  · rw [h1]
    by_cases hd : inp.distRepo
    · simp only [hd, if_true]
      rcases runGroup_cases inp true { inp.distGates with gitTag := inp.distShouldTag } v with ⟨b, h2⟩ | ⟨b, s2, h2⟩
      · rw [h2]; left; rfl
      · rw [h2]; right; exact ⟨true, s2, rfl⟩
    · simp only [hd, if_false]
      left; rfl
  · rw [h1]
    right
    exact ⟨false, s, rfl⟩

/-- C8: GitHub.validate with a release requested and no token raises the
GithubTokenError, and with no release requested it raises nothing
whatever the token; in the pipeline, a requested release with the token
environment variable absent aborts with the GithubTokenError right after
git validation, before any step group (hence before any network call)
appears in the trace; and with no release requested in either gate set a
missing token never yields the GithubTokenError. -/
theorem github_token_validation :
    (GitHub.validate true none = some PErr.githubToken) ∧
    (∀ tok : Option String, GitHub.validate false tok = none) ∧
    (∀ inp : PipelineInput, inp.gitOk = true → inp.gates.ghRelease = true →
      envGet inp.env inp.tokenRef = none →
      runTasks inp = ([Event.gitValidated], some PErr.githubToken) ∧
      sgEvents (runTasks inp).1 = []) ∧
    (∀ inp : PipelineInput, inp.gates.ghRelease = false → inp.distGates.ghRelease = false →
      (runTasks inp).2 ≠ some PErr.githubToken) := by
  refine ⟨by decide, ?_, ?_, ?_⟩
  · intro tok
    simp [GitHub.validate]
  · intro inp hg hr ht
    have hval : GitHub.validate inp.gates.ghRelease (envGet inp.env inp.tokenRef) =
        some PErr.githubToken := by
      rw [hr, ht]
      decide
    have heq : runTasks inp = ([Event.gitValidated], some PErr.githubToken) := by
      rw [runTasks]
      simp [hg, hval]
    refine ⟨heq, ?_⟩
    rw [heq]
    decide
  · intro inp h1 h2
    have hval1 : GitHub.validate inp.gates.ghRelease (envGet inp.env inp.tokenRef) = none := by
      rw [h1]; simp [GitHub.validate]
    have hval2 : GitHub.validate inp.distGates.ghRelease (envGet inp.env inp.tokenRef) = none := by
      rw [h2]; simp [GitHub.validate]
    rw [runTasks]
    by_cases hg : inp.gitOk = false
    · simp [hg]
    · simp only [hg, if_false]
      rw [hval1, hval2]
      rcases hver : inp.resolvedVersion with _ | v
      · simp
      · rcases runRelease_cases inp v with hrel | ⟨d, s, hrel⟩
        · simp [hrel]
        · simp [hrel]

/-- C8 witness: the pipeline with a requested release, an empty
environment and the default token reference aborts with the
GithubTokenError and an empty step-group trace. -/
theorem github_token_validation_witness :
    runTasks { gates := { ghRelease := true } } = ([Event.gitValidated], some PErr.githubToken) ∧
    sgEvents (runTasks { gates := { ghRelease := true } }).1 = [] := by
  exact github_token_validation.2.2.1 { gates := { ghRelease := true } } rfl rfl rfl

/-- C7: when no version was resolved the pipeline fails (with
InvalidVersionError once the earlier validations passed) and neither the
file bump nor the staging stage ever appears in the trace; and whenever
a bump or staging event appears in a trace, the version-validation event
precedes it, with no bump or staging before it. -/
theorem version_before_bump :
    (∀ inp : PipelineInput, inp.resolvedVersion = none →
      (runTasks inp).2.isSome = true ∧
      Event.bumpFiles ∉ (runTasks inp).1 ∧ Event.stageFiles ∉ (runTasks inp).1) ∧
    (∀ inp : PipelineInput, inp.gitOk = true →
      GitHub.validate inp.gates.ghRelease (envGet inp.env inp.tokenRef) = none →
      GitHub.validate inp.distGates.ghRelease (envGet inp.env inp.tokenRef) = none →
      inp.resolvedVersion = none →
      (runTasks inp).2 = some PErr.invalidVersion) ∧
    (∀ inp : PipelineInput,
      Event.bumpFiles ∈ (runTasks inp).1 ∨ Event.stageFiles ∈ (runTasks inp).1 →
      ∃ a b, (runTasks inp).1 = a ++ Event.versionValidated :: b ∧
        Event.bumpFiles ∉ a ∧ Event.stageFiles ∉ a) := by
  refine ⟨?_, ?_, ?_⟩
  · intro inp hv
    rw [runTasks]
    by_cases hg : inp.gitOk = false
    · simp [hg]
    · simp only [hg, if_false]
      rcases h1 : GitHub.validate inp.gates.ghRelease (envGet inp.env inp.tokenRef) with _ | e1
      · rcases h2 : GitHub.validate inp.distGates.ghRelease (envGet inp.env inp.tokenRef) with _ | e2
        · rw [hv]
          simp [tracePre]
        · simp
      · simp
  · intro inp hg h1 h2 hv
    rw [runTasks]
    rw [h1, h2, hv]
    simp [hg]
  · intro inp hmem
    rw [runTasks] at hmem ⊢
    by_cases hg : inp.gitOk = false
    · simp [hg] at hmem
    · simp only [hg, if_false] at hmem ⊢
      rcases h1 : GitHub.validate inp.gates.ghRelease (envGet inp.env inp.tokenRef) with _ | e1
      · rw [h1] at hmem
        rcases h2 : GitHub.validate inp.distGates.ghRelease (envGet inp.env inp.tokenRef) with _ | e2
        · rw [h2] at hmem
          rcases hv : inp.resolvedVersion with _ | v
          · rw [hv] at hmem
            simp [tracePre] at hmem
          · rw [hv] at hmem
            refine ⟨tracePre,
              [Event.bumpFiles, Event.stageFiles, Event.stageDir] ++
                (if inp.distRepo then [Event.distPrepare] else []) ++ (runRelease inp v).1,
              ?_, by decide, by decide⟩
            simp [tracePre, traceMid]
        · rw [h2] at hmem
          simp at hmem
      · rw [h1] at hmem
        simp at hmem

/-- C7 witness: a pipeline input with no resolved version fails with the
InvalidVersionError and its trace contains no file bump. -/
theorem version_before_bump_witness :
    (runTasks ({} : PipelineInput)).2 = some PErr.invalidVersion ∧
    Event.bumpFiles ∉ (runTasks ({} : PipelineInput)).1 := by
  have h := version_before_bump
  exact ⟨h.2.1 {} rfl (by decide) (by decide) rfl, (h.1 {} rfl).2.1⟩

theorem planned_nil (i d : Bool) (g : StepGates) (c : StepName → Bool)
    (h5 : fiveGatesFalse g) (ha : g.ghAssets = false) :
    plannedSteps i d g c = [] := by
  obtain ⟨h1, h2, h3, h4, h5p⟩ := h5
  cases i <;> simp [plannedSteps, h1, h2, h3, h4, h5p, ha]

theorem runGroup_nil (inp : PipelineInput) (d : Bool) (g : StepGates) (v : String)
    (h : plannedSteps inp.isInteractive inp.isDryRun g (inp.confirm d) = []) :
    runGroup inp d g v = ([Event.stepGroup d v [], Event.afterReleaseHook d], none) := by
  simp only [runGroup, h, runSteps]

/-- C5: when the five configuration-derived gates of the step group are
all false (the publish gate being the publish flag ANDed with the
negated private flag, the release gate also covering the asset upload
that the spec folds into the create-release sub-step), no commit, tag,
push, release, upload or publish sub-step executes in any step group of
the run, the pipeline raises no error, and the summary stage is still
reached. -/
theorem step_group_gating (inp : PipelineInput) (v : String)
    (hgit : inp.gitOk = true) (hv : inp.resolvedVersion = some v)
    (h5 : fiveGatesFalse inp.gates) (ha : inp.gates.ghAssets = false)
    (hdr : inp.distGates.ghRelease = false)
    (hd : inp.distRepo = true →
      fiveGatesFalse inp.distGates ∧ inp.distGates.ghAssets = false ∧ inp.distShouldTag = false) :
    (runTasks inp).2 = none ∧ Event.summary ∈ (runTasks inp).1 ∧
    ∀ (d : Bool) (w : String) (s : List StepName),
      Event.stepGroup d w s ∈ (runTasks inp).1 → s = [] := by
  have hrel : inp.gates.ghRelease = false := h5.2.2.2.1
  have hval1 : GitHub.validate inp.gates.ghRelease (envGet inp.env inp.tokenRef) = none := by
    rw [hrel]; simp [GitHub.validate]
  have hval2 : GitHub.validate inp.distGates.ghRelease (envGet inp.env inp.tokenRef) = none := by
    rw [hdr]; simp [GitHub.validate]
  have hg1 : runGroup inp false inp.gates v =
      ([Event.stepGroup false v [], Event.afterReleaseHook false], none) :=
    runGroup_nil inp false inp.gates v (planned_nil _ _ _ _ h5 ha)
  rw [runTasks]
  rw [hval1, hval2, hv]
  simp only [hgit]
  by_cases hdist : inp.distRepo
  · obtain ⟨h5d, had, hst⟩ := hd hdist
    have h5d' : fiveGatesFalse { inp.distGates with gitTag := inp.distShouldTag } := by
      obtain ⟨k1, k2, k3, k4, k5⟩ := h5d
      exact ⟨k1, by simpa using hst, k3, k4, k5⟩
    have hg2 : runGroup inp true { inp.distGates with gitTag := inp.distShouldTag } v =
        ([Event.stepGroup true v [], Event.afterReleaseHook true], none) :=
      runGroup_nil inp true _ v (planned_nil _ _ _ _ h5d' (by simpa using had))
    rw [runRelease]
    rw [hg1]
    simp only [hdist, if_true]
    rw [hg2]
    refine ⟨by simp, by simp [tracePre, traceMid], ?_⟩
    intro d w s hmem
    simp [tracePre, traceMid, hdist] at hmem
    rcases hmem with ⟨hd', hw, hs⟩ | ⟨hd', hw, hs⟩
    · exact hs
    · exact hs
  · rw [runRelease]
    rw [hg1]
    simp only [hdist, if_false]
    refine ⟨by simp, by simp [tracePre, traceMid], ?_⟩
    intro d w s hmem
    simp [tracePre, traceMid, hdist] at hmem
    obtain ⟨hd', hw, hs⟩ := hmem
    exact hs

/-- C5 witness: a run with every gate at its false default, a resolved
version, and no distribution repository completes with no error and
reaches the summary. -/
theorem step_group_gating_witness :
    (runTasks { resolvedVersion := some "1.0.1" }).2 = none ∧
    Event.summary ∈ (runTasks { resolvedVersion := some "1.0.1" }).1 := by
  have h := step_group_gating { resolvedVersion := some "1.0.1" } "1.0.1" rfl rfl
    (by decide) rfl rfl (by decide)
  exact ⟨h.1, h.2.1⟩

/-- C6: with a distribution repository configured and a successful run,
the trace contains exactly two step-group events, the primary one first
and the distribution one second, both carrying the single resolved
version; with no distribution repository it contains at most one (and
exactly one for the primary on success); and whenever a distribution
step group appears in any trace, the primary step group ran before it
and completed successfully, both sharing the resolved version. -/
theorem dist_repo_step_group :
    (∀ (inp : PipelineInput) (t : List Event), inp.distRepo = true →
      runTasks inp = (t, none) →
      ∃ v s1 s2, inp.resolvedVersion = some v ∧
        sgEvents t = [Event.stepGroup false v s1, Event.stepGroup true v s2]) ∧
    (∀ (inp : PipelineInput) (t : List Event) (e : Option PErr), inp.distRepo = false →
      runTasks inp = (t, e) →
      (∀ (v : String) (s : List StepName), Event.stepGroup true v s ∉ t) ∧
      (e = none → ∃ v s1, inp.resolvedVersion = some v ∧
        sgEvents t = [Event.stepGroup false v s1])) ∧
    (∀ (inp : PipelineInput) (t : List Event) (e : Option PErr) (v : String) (s : List StepName),
      runTasks inp = (t, e) → Event.stepGroup true v s ∈ t →
      inp.resolvedVersion = some v ∧
      (runGroup inp false inp.gates v).2 = none ∧
      ∃ s1, sgEvents t = [Event.stepGroup false v s1, Event.stepGroup true v s]) := by
  refine ⟨?_, ?_, ?_⟩
  · intro inp t hdist heq
    rw [runTasks] at heq
    by_cases hg : inp.gitOk = false
    · rw [if_pos hg] at heq
      injection heq with ht he
      cases he
    · rw [if_neg hg] at heq
      rcases h1 : GitHub.validate inp.gates.ghRelease (envGet inp.env inp.tokenRef) with _ | e1
      · rw [h1] at heq
        rcases h2 : GitHub.validate inp.distGates.ghRelease (envGet inp.env inp.tokenRef) with _ | e2
        · rw [h2] at heq
          rcases hver : inp.resolvedVersion with _ | v
          · rw [hver] at heq
            injection heq with ht he
            cases he
          · rw [hver] at heq
            simp only [runRelease] at heq
            rcases runGroup_cases inp false inp.gates v with ⟨a1, hgr1⟩ | ⟨a1, s1, hgr1⟩
            · rw [hgr1] at heq
              rw [if_pos hdist] at heq
              rcases runGroup_cases inp true { inp.distGates with gitTag := inp.distShouldTag } v with
                ⟨a2, hgr2⟩ | ⟨a2, s2, hgr2⟩
              · rw [hgr2] at heq
                injection heq with ht he
                subst ht
                refine ⟨v, a1, a2, rfl, ?_⟩
                simp [sgEvents, tracePre, traceMid, hdist, Event.isStepGroupEvt]
              · rw [hgr2] at heq
                injection heq with ht he
                cases he
            · rw [hgr1] at heq
              injection heq with ht he
              cases he
        · rw [h2] at heq
          injection heq with ht he
          cases he
      · rw [h1] at heq
        injection heq with ht he
        cases he
  · intro inp t e hdist heq
    rw [runTasks] at heq
    by_cases hg : inp.gitOk = false
    · rw [if_pos hg] at heq
      injection heq with ht he
      subst ht
      subst he
      exact ⟨by intro v s; simp, by intro hc; cases hc⟩
    · rw [if_neg hg] at heq
      rcases h1 : GitHub.validate inp.gates.ghRelease (envGet inp.env inp.tokenRef) with _ | e1
      · rw [h1] at heq
        rcases h2 : GitHub.validate inp.distGates.ghRelease (envGet inp.env inp.tokenRef) with _ | e2
        · rw [h2] at heq
          rcases hver : inp.resolvedVersion with _ | v
          · rw [hver] at heq
            injection heq with ht he
            subst ht
            subst he
            exact ⟨by intro v s; simp [tracePre], by intro hc; cases hc⟩
          · rw [hver] at heq
            simp only [runRelease] at heq
            rcases runGroup_cases inp false inp.gates v with ⟨a1, hgr1⟩ | ⟨a1, s1, hgr1⟩
            · rw [hgr1] at heq
              rw [if_neg (by simp [hdist])] at heq
              injection heq with ht he
              subst ht
              subst he
              refine ⟨?_, ?_⟩
              · intro w s
                simp [tracePre, traceMid, hdist]
              · intro _
                exact ⟨v, a1, rfl,
                  by simp [sgEvents, tracePre, traceMid, hdist, Event.isStepGroupEvt]⟩
            · rw [hgr1] at heq
              rw [if_neg (by simp [hdist])] at heq
              injection heq with ht he
              subst ht
              subst he
              refine ⟨?_, ?_⟩
              · intro w s
                simp [tracePre, traceMid, hdist]
              · intro hc
                cases hc
        · rw [h2] at heq
          injection heq with ht he
          subst ht
          subst he
          exact ⟨by intro v s; simp, by intro hc; cases hc⟩
      · rw [h1] at heq
        injection heq with ht he
        subst ht
        subst he
        exact ⟨by intro v s; simp, by intro hc; cases hc⟩
  · intro inp t e v s heq hmem
    rw [runTasks] at heq
    by_cases hg : inp.gitOk = false
    · rw [if_pos hg] at heq
      injection heq with ht he
      subst ht
      simp at hmem
    · rw [if_neg hg] at heq
      rcases h1 : GitHub.validate inp.gates.ghRelease (envGet inp.env inp.tokenRef) with _ | e1
      · rw [h1] at heq
        rcases h2 : GitHub.validate inp.distGates.ghRelease (envGet inp.env inp.tokenRef) with _ | e2
        · rw [h2] at heq
          rcases hver : inp.resolvedVersion with _ | w
          · rw [hver] at heq
            injection heq with ht he
            subst ht
            simp [tracePre] at hmem
          · rw [hver] at heq
            simp only [runRelease] at heq
            rcases runGroup_cases inp false inp.gates w with ⟨a1, hgr1⟩ | ⟨a1, s1, hgr1⟩
            · rw [hgr1] at heq
              by_cases hdist : inp.distRepo
              · rw [if_pos hdist] at heq
                rcases runGroup_cases inp true { inp.distGates with gitTag := inp.distShouldTag } w with
                  ⟨a2, hgr2⟩ | ⟨a2, s2, hgr2⟩
                · rw [hgr2] at heq
                  injection heq with ht he
                  subst ht
                  simp [tracePre, traceMid, hdist] at hmem
                  obtain ⟨hvw, hsa⟩ := hmem
                  subst hvw
                  subst hsa
                  refine ⟨rfl, by rw [hgr1], a1, ?_⟩
                  simp [sgEvents, tracePre, traceMid, hdist, Event.isStepGroupEvt]
                · rw [hgr2] at heq
                  injection heq with ht he
                  subst ht
                  simp [tracePre, traceMid, hdist] at hmem
                  obtain ⟨hvw, hsa⟩ := hmem
                  subst hvw
                  subst hsa
                  refine ⟨rfl, by rw [hgr1], a1, ?_⟩
                  simp [sgEvents, tracePre, traceMid, hdist, Event.isStepGroupEvt]
              · rw [if_neg hdist] at heq
                injection heq with ht he
                subst ht
                simp [tracePre, traceMid] at hmem
            · rw [hgr1] at heq
              by_cases hdist : inp.distRepo
              · rw [if_pos hdist] at heq
                injection heq with ht he
                subst ht
                simp [tracePre, traceMid, hdist] at hmem
              · rw [if_neg hdist] at heq
                injection heq with ht he
                subst ht
                simp [tracePre, traceMid, hdist] at hmem
        · rw [h2] at heq
          injection heq with ht he
          subst ht
          simp at hmem
      · rw [h1] at heq
        injection heq with ht he
        subst ht
        simp at hmem

/-- C6 witness: a run with a distribution repository, a commit gate on
both sides and no failing step executes the step group exactly twice,
primary first, both invocations carrying the shared resolved version. -/
theorem dist_repo_step_group_witness :
    ∃ v s1 s2, inpDistSample.resolvedVersion = some v ∧
      sgEvents (runTasks inpDistSample).1 =
        [Event.stepGroup false v s1, Event.stepGroup true v s2] := by
  exact dist_repo_step_group.1 inpDistSample (runTasks inpDistSample).1 rfl rfl
